import Mathlib

/-!
Shallow embedding of the qbo-webhook-mapper service core: the OAuth state
token codecs, the credential cipher, the integration datastore, the
QuickBooks customer parser and the initial-sync orchestration, translated
from the Python source under src/. External library primitives (HMAC-SHA256,
AES, Fernet, the JSON codec) are parameters of the embedding, constrained
only by their documented contracts; all structural logic (base64, splitting,
padding, CBC chaining, truthiness checks, error accumulation) is concrete.
-/

/-- A byte, as found in Python `bytes` values. -/
abbrev Byte := Fin 256

/-- Truncate a natural number into a byte (used where arithmetic provably
stays below 256). -/
def byteOf (n : Nat) : Byte := ⟨n % 256, Nat.mod_lt n (by omega)⟩

theorem byteOf_val (b : Byte) : byteOf b.val = b := by
  apply Fin.ext
  simp [byteOf, Nat.mod_eq_of_lt b.isLt]

/-- One lowercase hex digit, as produced by `hexdigest()`. -/
def hexDigitChar (n : Nat) : Char :=
  if n < 10 then Char.ofNat (48 + n) else Char.ofNat (87 + n)

/-- `hmac.new(...).hexdigest()` rendering of a digest byte string. -/
def hexdigest (digest : List Byte) : List Char :=
  digest.foldr (fun b acc => hexDigitChar (b.val / 16) :: hexDigitChar (b.val % 16) :: acc) []

/-- Base64 character of one sextet; `urlsafe` selects between the
`base64.urlsafe_b64encode` and `base64.b64encode` alphabets. -/
def sextetChar (urlsafe : Bool) (s : Nat) : Char :=
  if s < 26 then Char.ofNat (65 + s)
  else if s < 52 then Char.ofNat (71 + s)
  else if s < 62 then Char.ofNat (s - 4)
  else if s = 62 then (if urlsafe then '-' else '+')
  else (if urlsafe then '_' else '/')

/-- Inverse base64 character table. -/
def charSextet (urlsafe : Bool) (c : Char) : Option Nat :=
  if 65 ≤ c.toNat ∧ c.toNat ≤ 90 then some (c.toNat - 65)
  else if 97 ≤ c.toNat ∧ c.toNat ≤ 122 then some (c.toNat - 71)
  else if 48 ≤ c.toNat ∧ c.toNat ≤ 57 then some (c.toNat + 4)
  else if c = (if urlsafe then '-' else '+') then some 62
  else if c = (if urlsafe then '_' else '/') then some 63
  else none

theorem charSextet_sextetChar (u : Bool) : ∀ s < 64, charSextet u (sextetChar u s) = some s := by
  cases u <;> decide

theorem sextetChar_ne_dot (u : Bool) : ∀ s < 64, sextetChar u s ≠ '.' := by
  cases u <;> decide

theorem sextetChar_ne_eq_sign (u : Bool) : ∀ s < 64, sextetChar u s ≠ '=' := by
  cases u <;> decide

/-- `base64.b64encode` on a byte string, three bytes per four characters with
trailing `=` padding. -/
def b64Encode (u : Bool) : List Byte → List Char
  | [] => []
  | [a] => [sextetChar u (a.val / 4), sextetChar u (a.val % 4 * 16), '=', '=']
  | [a, b] =>
      [sextetChar u (a.val / 4), sextetChar u (a.val % 4 * 16 + b.val / 16),
       sextetChar u (b.val % 16 * 4), '=']
  | a :: b :: c :: rest =>
      sextetChar u (a.val / 4) :: sextetChar u (a.val % 4 * 16 + b.val / 16) ::
      sextetChar u (b.val % 16 * 4 + c.val / 64) :: sextetChar u (c.val % 64) ::
      b64Encode u rest

/-- `base64.b64decode` on a character string (strict alphabet). -/
def b64Decode (u : Bool) : List Char → Option (List Byte)
  | [] => some []
  | c0 :: c1 :: c2 :: c3 :: rest =>
      if c2 = '=' ∧ c3 = '=' ∧ rest = [] then do
        let s0 ← charSextet u c0
        let s1 ← charSextet u c1
        pure [byteOf (s0 * 4 + s1 / 16)]
      else if c3 = '=' ∧ rest = [] then do
        let s0 ← charSextet u c0
        let s1 ← charSextet u c1
        let s2 ← charSextet u c2
        pure [byteOf (s0 * 4 + s1 / 16), byteOf (s1 % 16 * 16 + s2 / 4)]
      else do
        let s0 ← charSextet u c0
        let s1 ← charSextet u c1
        let s2 ← charSextet u c2
        let s3 ← charSextet u c3
        let tl ← b64Decode u rest
        pure (byteOf (s0 * 4 + s1 / 16) :: byteOf (s1 % 16 * 16 + s2 / 4) ::
              byteOf (s2 % 4 * 64 + s3) :: tl)
  | _ => none

theorem b64_roundtrip (u : Bool) : ∀ bs : List Byte, b64Decode u (b64Encode u bs) = some bs := by
  intro bs
  induction bs using b64Encode.induct u with
  | case1 => rfl
  | case2 a =>
      have ha := a.isLt
      have h0 := charSextet_sextetChar u (a.val / 4) (by omega)
      have h1 := charSextet_sextetChar u (a.val % 4 * 16) (by omega)
      simp [b64Encode, b64Decode, h0, h1, byteOf, Fin.ext_iff]
      omega
  | case3 a b =>
      have ha := a.isLt
      have hb := b.isLt
      have h0 := charSextet_sextetChar u (a.val / 4) (by omega)
      have h1 := charSextet_sextetChar u (a.val % 4 * 16 + b.val / 16) (by omega)
      have h2 := charSextet_sextetChar u (b.val % 16 * 4) (by omega)
      have hne := sextetChar_ne_eq_sign u (b.val % 16 * 4) (by omega)
      simp [b64Encode, b64Decode, h0, h1, h2, hne, byteOf, Fin.ext_iff]
      omega
  | case4 a b c rest ih =>
      have ha := a.isLt
      have hb := b.isLt
      have hc := c.isLt
      have h0 := charSextet_sextetChar u (a.val / 4) (by omega)
      have h1 := charSextet_sextetChar u (a.val % 4 * 16 + b.val / 16) (by omega)
      have h2 := charSextet_sextetChar u (b.val % 16 * 4 + c.val / 64) (by omega)
      have h3 := charSextet_sextetChar u (c.val % 64) (by omega)
      have hne2 := sextetChar_ne_eq_sign u (b.val % 16 * 4 + c.val / 64) (by omega)
      have hne3 := sextetChar_ne_eq_sign u (c.val % 64) (by omega)
      simp [b64Encode, b64Decode, h0, h1, h2, h3, hne2, hne3, ih, byteOf, Fin.ext_iff]
      omega

theorem b64Encode_injective (u : Bool) {bs1 bs2 : List Byte}
    (h : b64Encode u bs1 = b64Encode u bs2) : bs1 = bs2 := by
  have h1 := b64_roundtrip u bs1
  have h2 := b64_roundtrip u bs2
  rw [h, h2] at h1
  exact (Option.some.injEq _ _ ▸ h1).symm

theorem b64Encode_no_dot (u : Bool) : ∀ bs : List Byte, '.' ∉ b64Encode u bs := by
  intro bs
  induction bs using b64Encode.induct u with
  | case1 => simp [b64Encode]
  | case2 a =>
      have ha := a.isLt
      have n0 := Ne.symm (sextetChar_ne_dot u (a.val / 4) (by omega))
      have n1 := Ne.symm (sextetChar_ne_dot u (a.val % 4 * 16) (by omega))
      simp [b64Encode, n0, n1]
  | case3 a b =>
      have ha := a.isLt
      have hb := b.isLt
      have n0 := Ne.symm (sextetChar_ne_dot u (a.val / 4) (by omega))
      have n1 := Ne.symm (sextetChar_ne_dot u (a.val % 4 * 16 + b.val / 16) (by omega))
      have n2 := Ne.symm (sextetChar_ne_dot u (b.val % 16 * 4) (by omega))
      simp [b64Encode, n0, n1, n2]
  | case4 a b c rest ih =>
      have ha := a.isLt
      have hb := b.isLt
      have hc := c.isLt
      have n0 := Ne.symm (sextetChar_ne_dot u (a.val / 4) (by omega))
      have n1 := Ne.symm (sextetChar_ne_dot u (a.val % 4 * 16 + b.val / 16) (by omega))
      have n2 := Ne.symm (sextetChar_ne_dot u (b.val % 16 * 4 + c.val / 64) (by omega))
      have n3 := Ne.symm (sextetChar_ne_dot u (c.val % 64) (by omega))
      simp [b64Encode, n0, n1, n2, n3, ih]

/-! ## Python values decoded from JSON

A minimal model of the values `json.loads` can return (floats are not needed
by any modelled code path and are omitted; numbers are integers). -/

inductive Json where
  | null
  | bool (b : Bool)
  | int (n : Int)
  | str (s : List Char)
  | arr (xs : List Json)
  | obj (fields : List (List Char × Json))

instance : Inhabited Json := ⟨Json.null⟩

/-- Python truthiness (`if not x`) on JSON-decoded values. -/
def jsonTruthy : Json → Bool
  | .null => false
  | .bool b => b
  | .int n => n != 0
  | .str s => !s.isEmpty
  | .arr xs => !xs.isEmpty
  | .obj fs => !fs.isEmpty

/-- Python `x or y` on JSON-decoded values: first truthy operand, else the
last operand. -/
def truthyOr (a b : Json) : Json := if jsonTruthy a then a else b

/-- `d.get(key)` on a dict: the value, or `None` when the key is absent. -/
def dictGet (fields : List (List Char × Json)) (key : List Char) : Json :=
  match fields.find? (fun kv => kv.1 == key) with
  | some kv => kv.2
  | none => .null

/-- `d.get(key, default)` on a dict. -/
def dictGetD (fields : List (List Char × Json)) (key : List Char) (dflt : Json) : Json :=
  match fields.find? (fun kv => kv.1 == key) with
  | some kv => kv.2
  | none => dflt

/-- `d[key]` on a dict: `none` models the `KeyError` path. -/
def dictItem (fields : List (List Char × Json)) (key : List Char) : Option Json :=
  (fields.find? (fun kv => kv.1 == key)).map (fun kv => kv.2)

/-- Python `str(x)` on JSON-decoded values; the `repr`-style rendering of
containers is abbreviated, no modelled code path inspects it. -/
def pyStr : Json → List Char
  | .null => "None".data
  | .bool b => if b then "True".data else "False".data
  | .int n => (toString n).data
  | .str s => s
  | .arr _ => "[...]".data
  | .obj _ => "\x7b...\x7d".data

/-- An exception escaping a function that the source does not catch. -/
inductive PyExn where
  | attributeError
  | typeError
deriving DecidableEq

/-- `state.split(".", 1)`: split at the first dot; `none` models the
`ValueError` raised when there is no dot to split on. -/
def splitFirstDot : List Char → Option (List Char × List Char)
  | [] => none
  | c :: rest =>
    if c = '.' then some ([], rest)
    else
      match splitFirstDot rest with
      | none => none
      | some (p, s) => some (c :: p, s)

theorem splitFirstDot_append {p : List Char} (s : List Char) (hp : '.' ∉ p) :
    splitFirstDot (p ++ '.' :: s) = some (p, s) := by
  induction p with
  | nil => simp [splitFirstDot]
  | cons c rest ih =>
      have hc : c ≠ '.' := fun h => hp (h ▸ List.mem_cons_self c rest)
      have hrest : '.' ∉ rest := fun h => hp (List.mem_cons_of_mem c h)
      simp [splitFirstDot, hc, ih hrest]

/-- The UTF-8 bytes of one character, as `str.encode()` produces them. -/
def utf8Bytes (c : Char) : List Byte :=
  let n := c.toNat
  if n < 128 then [byteOf n]
  else if n < 2048 then [byteOf (192 + n / 64), byteOf (128 + n % 64)]
  else if n < 65536 then
    [byteOf (224 + n / 4096), byteOf (128 + n / 64 % 64), byteOf (128 + n % 64)]
  else
    [byteOf (240 + n / 262144), byteOf (128 + n / 4096 % 64),
     byteOf (128 + n / 64 % 64), byteOf (128 + n % 64)]

/-- `str.encode()`: the UTF-8 byte string of a string. -/
def strEncode (s : List Char) : List Byte := (s.map utf8Bytes).flatten

/-- Whether a string contains only ASCII characters. -/
def isAsciiStr (s : List Char) : Bool := s.all (fun c => c.toNat < 128)

/-- `hmac.compare_digest(a, b)` on str arguments: constant-time equality,
except that CPython raises TypeError when either argument contains a
non-ASCII character. -/
def compare_digest (a b : List Char) : Except PyExn Bool :=
  if isAsciiStr a && isAsciiStr b then .ok (a == b) else .error .typeError

theorem hexDigitChar_ascii : ∀ n < 16, (hexDigitChar n).toNat < 128 := by
  decide

theorem isAsciiStr_hexdigest (d : List Byte) : isAsciiStr (hexdigest d) = true := by
  induction d with
  | nil => rfl
  | cons b rest ih =>
      have hb := b.isLt
      have h1 := hexDigitChar_ascii (b.val / 16) (by omega)
      have h2 := hexDigitChar_ascii (b.val % 16) (by omega)
      simp only [hexdigest, List.foldr_cons] at *
      simp [isAsciiStr, List.all_cons, h1, h2] at *
      exact ih

theorem compare_digest_self {a : List Char} (h : isAsciiStr a = true) :
    compare_digest a a = .ok true := by
  simp [compare_digest, h]

theorem isAsciiStr_set {l : List Char} {i : Nat} {c : Char}
    (hl : isAsciiStr l = true) (hc : c.toNat < 128) :
    isAsciiStr (l.set i c) = true := by
  rw [isAsciiStr, List.all_eq_true]
  intro x hx
  rcases List.mem_or_eq_of_mem_set hx with hx1 | hx2
  · exact (List.all_eq_true.mp hl) x hx1
  · rw [hx2]; simpa using hc

theorem isAsciiStr_set_false {l : List Char} {i : Nat} {c : Char}
    (hi : i < l.length) (hc : 128 ≤ c.toNat) :
    isAsciiStr (l.set i c) = false := by
  rw [isAsciiStr, List.all_eq_false]
  exact ⟨c, List.mem_set l i hi c, by simp; omega⟩

/-! ## accounting/utils/oauth_state.py — HMAC-signed state token codec -/

namespace OauthState

/-- Library collaborators of the codec. `hmacSha256 key msg` is the digest of
`hmac.new(key, msg, "sha256")`; `jsonDumps` is `json.dumps(..).encode()` and
`jsonLoads` is `json.loads(bytes.decode(..))`, with `none` covering both a
UnicodeDecodeError and a JSONDecodeError. The embedding is parametric in
these external primitives. -/
structure Libs where
  hmacSha256 : List Byte → List Byte → List Byte
  jsonDumps : Json → List Byte
  jsonLoads : List Byte → Option Json

/-- The payload dict built by generate_state. -/
def statePayload (partner_id accounting_system : List Char) (timestamp : Int) : Json :=
  .obj [("partner_id".data, .str partner_id),
        ("accounting_system".data, .str accounting_system),
        ("timestamp".data, .int timestamp)]

/-- The signature part of a token: hexdigest of the HMAC of the UTF-8
encoded base64 payload under the UTF-8 encoded configured secret. -/
def signatureOf (L : Libs) (secret : List Char) (payload_b64 : List Char) : List Char :=
  hexdigest (L.hmacSha256 (strEncode secret) (strEncode payload_b64))

theorem isAsciiStr_signatureOf (L : Libs) (secret payload_b64 : List Char) :
    isAsciiStr (signatureOf L secret payload_b64) = true :=
  isAsciiStr_hexdigest _

/-- A correctly signed token for an arbitrary payload (generate_state uses
this with statePayload; an attacker holding the secret could use any). -/
def signedToken (L : Libs) (secret : List Char) (payload : Json) : List Char :=
  let payload_b64 := b64Encode true (L.jsonDumps payload)
  payload_b64 ++ '.' :: signatureOf L secret payload_b64

/-- generate_state(partner_id, accounting_system); `now` is the value of
int(datetime.now(timezone.utc).timestamp()). -/
def generate_state (L : Libs) (secret : List Char)
    (partner_id accounting_system : List Char) (now : Int) : List Char :=
  signedToken L secret (statePayload partner_id accounting_system now)

/-- The part of verify_state after the decode try-block: payload.get of
"timestamp", the falsy-timestamp rejection, and the TTL check. A non-dict
payload raises AttributeError at payload.get, and a truthy non-numeric
timestamp raises TypeError in the age subtraction; neither is caught by the
source. A True timestamp behaves as the number 1 in Python arithmetic. -/
def timestampCheck (now : Int) (payload : Json) : Except PyExn (Option Json) :=
  match payload with
  | .obj fields =>
    match dictGet fields "timestamp".data with
    | .int t => if t = 0 then .ok none else if now - t > 600 then .ok none else .ok (some payload)
    | .bool b => if b = false then .ok none else if now - 1 > 600 then .ok none else .ok (some payload)
    | .null => .ok none
    | .str s => if s.isEmpty then .ok none else .error .typeError
    | .arr xs => if xs.isEmpty then .ok none else .error .typeError
    | .obj fs => if fs.isEmpty then .ok none else .error .typeError
  | _ => .error .attributeError

/-- verify_state(state); `now` is datetime.now(timezone.utc).timestamp().
The result is `.ok none` where the source returns None, `.ok (some p)` where
it returns the payload, and `.error e` on the exception paths the source does
not catch — including the TypeError that hmac.compare_digest raises, outside
any try block, when the attacker-controlled signature part contains a
non-ASCII character. -/
def verify_state (L : Libs) (secret : List Char) (now : Int) (state : List Char) :
    Except PyExn (Option Json) :=
  match splitFirstDot state with
  | none => .ok none
  | some (payload_b64, signature) =>
    match compare_digest signature (signatureOf L secret payload_b64) with
    | .error e => .error e
    | .ok false => .ok none
    | .ok true =>
      match b64Decode true payload_b64 with
      | none => .ok none
      | some payloadBytes =>
        match L.jsonLoads payloadBytes with
        | none => .ok none
        | some payload => timestampCheck now payload

/-- Splitting a signed token recovers its two parts: the base64 payload part
contains no dot, so the first dot is the separator. -/
theorem splitFirstDot_signedToken (L : Libs) (secret : List Char) (payload : Json) :
    splitFirstDot (signedToken L secret payload) =
      some (b64Encode true (L.jsonDumps payload),
            signatureOf L secret (b64Encode true (L.jsonDumps payload))) := by
  exact splitFirstDot_append _ (b64Encode_no_dot true _)

/-- Core evaluation: verifying a signed token passes the signature and
decode steps and reaches the timestamp logic on the original payload. -/
theorem verify_signedToken (L : Libs) (secret : List Char) (now : Int) (payload : Json)
    (hjson : L.jsonLoads (L.jsonDumps payload) = some payload) :
    verify_state L secret now (signedToken L secret payload) =
      timestampCheck now payload := by
  unfold verify_state
  rw [splitFirstDot_signedToken]
  simp only []
  rw [compare_digest_self (isAsciiStr_signatureOf L secret _)]
  simp [b64_roundtrip, hjson]

end OauthState

/-! ## accounting/services/oauth_state_manager.py — Fernet state manager -/

namespace OAuthStateManager

/-- Library collaborators: the Fernet instance keyed from
settings.ENCRYPTION_KEY (`fernetDecrypt` returning `none` models the
InvalidToken exception) and the JSON codec. -/
structure Libs where
  fernetEncrypt : List Byte → List Char
  fernetDecrypt : List Char → Option (List Byte)
  jsonDumps : Json → List Byte
  jsonLoads : List Byte → Option Json

def ttl_seconds : Int := 600

/-- The data dict built by generate_state. -/
def statePayload (partner_id : Int) (callback_uri accounting_system : List Char)
    (timestamp : Int) : Json :=
  .obj [("partner_id".data, .int partner_id),
        ("callback_uri".data, .str callback_uri),
        ("accounting_system".data, .str accounting_system),
        ("timestamp".data, .int timestamp)]

/-- generate_state(partner_id, callback_uri, accounting_system); `now` is
int(time.time()). -/
def generate_state (L : Libs) (partner_id : Int)
    (callback_uri accounting_system : List Char) (now : Int) : List Char :=
  L.fernetEncrypt (L.jsonDumps (statePayload partner_id callback_uri accounting_system now))

/-- The distinguishable causes wrapped by validate_state into
ValueError("Invalid state parameter: ..."). Every internal exception —
InvalidToken from decrypt, JSONDecodeError, the explicit
ValueError("State expired"), KeyError on a missing timestamp, TypeError on
a non-numeric timestamp or non-dict data — is caught by the blanket
`except Exception` and re-raised as this single error type. -/
inductive ValidateFailure where
  | decryptFailed
  | jsonDecodeFailed
  | stateExpired
  | missingTimestamp
  | badTimestampType
  | notADict
deriving DecidableEq

/-- validate_state(state); `now` is time.time(). `.error r` models the
ValueError raised to the caller, tagged with its cause. -/
def validate_state (L : Libs) (now : Int) (state : List Char) :
    Except ValidateFailure Json :=
  match L.fernetDecrypt state with
  | none => .error .decryptFailed
  | some decrypted =>
    match L.jsonLoads decrypted with
    | none => .error .jsonDecodeFailed
    | some data =>
      match data with
      | .obj fields =>
        match dictItem fields "timestamp".data with
        | none => .error .missingTimestamp
        | some (.int t) =>
            if now - t > ttl_seconds then .error .stateExpired else .ok data
        | some (.bool b) =>
            if now - (if b then 1 else 0) > ttl_seconds then .error .stateExpired else .ok data
        | some _ => .error .badTimestampType
      | _ => .error .notADict

/-- Validating a generated token reduces to the TTL check on the original
payload, given the Fernet and JSON round-trip contracts at that payload. -/
theorem validate_generate (L : Libs) (partner_id : Int)
    (callback_uri accounting_system : List Char) (tGen vNow : Int)
    (hfernet : L.fernetDecrypt
        (L.fernetEncrypt (L.jsonDumps (statePayload partner_id callback_uri accounting_system tGen)))
      = some (L.jsonDumps (statePayload partner_id callback_uri accounting_system tGen)))
    (hjson : L.jsonLoads (L.jsonDumps (statePayload partner_id callback_uri accounting_system tGen))
      = some (statePayload partner_id callback_uri accounting_system tGen)) :
    validate_state L vNow (generate_state L partner_id callback_uri accounting_system tGen) =
      if vNow - tGen > ttl_seconds then .error .stateExpired
      else .ok (statePayload partner_id callback_uri accounting_system tGen) := by
  unfold validate_state generate_state
  rw [hfernet]
  simp only []
  rw [hjson]
  simp only []
  simp [statePayload, dictItem, List.find?]

end OAuthStateManager

/-! ## accounting/services/token_encryption.py — AES-CBC credential cipher -/

namespace TokenEncryption

/-- The AES block permutation pair from the cryptography library, keyed by
the process-wide key; the embedding is parametric in it. -/
structure BlockCipher where
  encryptBlock : List Byte → List Byte
  decryptBlock : List Byte → List Byte

/-- The library contract of an AES instance: a length-preserving permutation
of 16-byte blocks. -/
def BlockCipher.Lawful (C : BlockCipher) : Prop :=
  ∀ blk : List Byte, blk.length = 16 →
    (C.encryptBlock blk).length = 16 ∧ C.decryptBlock (C.encryptBlock blk) = blk

def byteXor (a b : Byte) : Byte :=
  ⟨a.val ^^^ b.val, by
    have := Nat.xor_lt_two_pow (n := 8) a.isLt b.isLt
    simpa using this⟩

/-- XOR of equal-length byte strings (the CBC chaining step). -/
def xorBytes (a b : List Byte) : List Byte := List.zipWith byteXor a b

theorem xorBytes_length (a b : List Byte) :
    (xorBytes a b).length = min a.length b.length := by
  simp [xorBytes]

theorem byteXor_cancel (a b : Byte) : byteXor a (byteXor a b) = b := by
  apply Fin.ext
  simp only [byteXor]
  rw [← Nat.xor_assoc, Nat.xor_self, Nat.zero_xor]

theorem xorBytes_cancel : ∀ a b : List Byte, a.length = b.length →
    xorBytes a (xorBytes a b) = b := by
  intro a
  induction a with
  | nil =>
      intro b h
      cases b with
      | nil => rfl
      | cons y ys => simp at h
  | cons x xs ih =>
      intro b h
      cases b with
      | nil => simp at h
      | cons y ys =>
          simp only [xorBytes, List.zipWith_cons_cons, byteXor_cancel]
          have htl := ih ys (by simpa using h)
          simp only [xorBytes] at htl
          rw [htl]

/-- `_pad`: PKCS7-style padding to a 16-byte multiple; padding_length is
16 - len(data) % 16 and every appended byte carries that value. -/
def pad (data : List Byte) : List Byte :=
  data ++ List.replicate (16 - data.length % 16) (byteOf (16 - data.length % 16))

/-- `_unpad`: read the final byte and drop that many bytes from the end;
`none` models the IndexError of data[-1] on an empty input, and a zero final
byte makes the slice data[:-0] = data[:0] empty. -/
def unpad (data : List Byte) : Option (List Byte) :=
  match data.getLast? with
  | none => none
  | some b => if b.val = 0 then some [] else some (data.take (data.length - b.val))

/-- Split a byte string into 16-byte chunks, as the block cipher consumes
it. -/
def toBlocks (l : List Byte) : List (List Byte) :=
  if l = [] then [] else l.take 16 :: toBlocks (l.drop 16)
termination_by l.length
decreasing_by
  rename_i h
  have : l.length ≠ 0 := fun hz => h (List.eq_nil_of_length_eq_zero hz)
  simp only [List.length_drop]
  omega

/-- CBC encryption over 16-byte blocks with chaining value `prev`. -/
def cbcEncrypt (E : List Byte → List Byte) (prev : List Byte) :
    List (List Byte) → List (List Byte)
  | [] => []
  | p :: rest =>
      let c := E (xorBytes prev p)
      c :: cbcEncrypt E c rest

/-- CBC decryption over 16-byte blocks with chaining value `prev`. -/
def cbcDecrypt (D : List Byte → List Byte) (prev : List Byte) :
    List (List Byte) → List (List Byte)
  | [] => []
  | c :: rest => xorBytes prev (D c) :: cbcDecrypt D c rest

/-- encrypt(token): pad, CBC-encrypt under a fresh 16-byte IV, and base64
the IV followed by the ciphertext. The plaintext is modelled as its UTF-8
byte encoding. -/
def encrypt (C : BlockCipher) (token : List Byte) (iv : List Byte) : List Char :=
  b64Encode false (iv ++ (cbcEncrypt C.encryptBlock iv (toBlocks (pad token))).flatten)

/-- decrypt(encrypted_token): base64-decode, split off the IV, CBC-decrypt
and unpad; `none` models the exceptions of malformed input. -/
def decrypt (C : BlockCipher) (encrypted_token : List Char) : Option (List Byte) :=
  match b64Decode false encrypted_token with
  | none => none
  | some data =>
      let iv := data.take 16
      let ct := data.drop 16
      unpad (cbcDecrypt C.decryptBlock iv (toBlocks ct)).flatten

theorem pad_length_mod (data : List Byte) : (pad data).length % 16 = 0 := by
  simp only [pad, List.length_append, List.length_replicate]
  omega

theorem pad_ne_nil (data : List Byte) : pad data ≠ [] := by
  intro h
  have := congrArg List.length h
  simp only [pad, List.length_append, List.length_replicate, List.length_nil] at this
  omega

theorem getLast?_replicate_of_pos {α : Type} (n : Nat) (a : α) (h : n ≠ 0) :
    (List.replicate n a).getLast? = some a := by
  cases n with
  | zero => exact absurd rfl h
  | succ m =>
    induction m with
    | zero => rfl
    | succ k ih => simpa [List.replicate_succ, List.getLast?_cons] using ih (by omega)

theorem unpad_pad (data : List Byte) : unpad (pad data) = some data := by
  have hval : (byteOf (16 - data.length % 16)).val = 16 - data.length % 16 := by
    simp only [byteOf]
    omega
  unfold unpad pad
  rw [List.getLast?_append, getLast?_replicate_of_pos _ _ (by omega)]
  simp only [Option.or]
  rw [hval, if_neg (by omega)]
  rw [List.length_append, List.length_replicate]
  rw [show data.length + (16 - data.length % 16) - (16 - data.length % 16) = data.length by omega]
  rw [List.take_left' rfl]

theorem flatten_toBlocks : ∀ l : List Byte, (toBlocks l).flatten = l := by
  intro l
  induction l using toBlocks.induct with
  | case1 => simp [toBlocks]
  | case2 l h ih =>
      rw [toBlocks, if_neg h]
      simp only [List.flatten_cons, ih, List.take_append_drop]

theorem toBlocks_cons_of_blocks (c : List Byte) (cs : List (List Byte))
    (hc : c.length = 16) (ih : toBlocks cs.flatten = cs) :
    toBlocks (c ++ cs.flatten) = c :: cs := by
  rw [toBlocks, if_neg (by intro h; have := congrArg List.length h; simp [hc] at this)]
  rw [List.take_left' hc, List.drop_left' hc, ih]

theorem toBlocks_flatten_of_blocks : ∀ cs : List (List Byte),
    (∀ c ∈ cs, c.length = 16) → toBlocks cs.flatten = cs := by
  intro cs
  induction cs with
  | nil => intro _; simp [toBlocks]
  | cons c rest ih =>
      intro h
      rw [List.flatten_cons]
      exact toBlocks_cons_of_blocks c rest (h c (List.mem_cons_self c rest))
        (ih (fun x hx => h x (List.mem_cons_of_mem c hx)))

theorem toBlocks_mem_length : ∀ l : List Byte, l.length % 16 = 0 →
    ∀ b ∈ toBlocks l, b.length = 16 := by
  intro l
  induction l using toBlocks.induct with
  | case1 => intro _ b hb; rw [toBlocks, if_pos rfl] at hb; simp at hb
  | case2 l h ih =>
      intro hmod b hb
      have hlen : l.length ≠ 0 := fun hz => h (List.eq_nil_of_length_eq_zero hz)
      have hge : 16 ≤ l.length := by omega
      rw [toBlocks, if_neg h] at hb
      rcases List.mem_cons.mp hb with hb1 | hb2
      · rw [hb1, List.length_take]
        omega
      · exact ih (by simp only [List.length_drop]; omega) b hb2

/-- The ciphertext blocks of a lawful cipher are 16 bytes each. -/
theorem cbcEncrypt_mem_length (C : BlockCipher) (hC : C.Lawful) :
    ∀ (blocks : List (List Byte)) (prev : List Byte), prev.length = 16 →
      (∀ b ∈ blocks, b.length = 16) →
      ∀ c ∈ cbcEncrypt C.encryptBlock prev blocks, c.length = 16 := by
  intro blocks
  induction blocks with
  | nil => intro prev _ _ c hc; simp [cbcEncrypt] at hc
  | cons p rest ih =>
      intro prev hprev hall c hc
      have hp : p.length = 16 := hall p (List.mem_cons_self p rest)
      have hx : (xorBytes prev p).length = 16 := by
        simp [xorBytes_length, hprev, hp]
      have hE := (hC _ hx).1
      simp only [cbcEncrypt, List.mem_cons] at hc
      rcases hc with hc1 | hc2
      · rw [hc1]; exact hE
      · exact ih _ hE (fun x hx2 => hall x (List.mem_cons_of_mem p hx2)) c hc2

/-- CBC decryption inverts CBC encryption for a lawful cipher. -/
theorem cbcDecrypt_cbcEncrypt (C : BlockCipher) (hC : C.Lawful) :
    ∀ (blocks : List (List Byte)) (prev : List Byte), prev.length = 16 →
      (∀ b ∈ blocks, b.length = 16) →
      cbcDecrypt C.decryptBlock prev (cbcEncrypt C.encryptBlock prev blocks) = blocks := by
  intro blocks
  induction blocks with
  | nil => intro prev _ _; rfl
  | cons p rest ih =>
      intro prev hprev hall
      have hp : p.length = 16 := hall p (List.mem_cons_self p rest)
      have hx : (xorBytes prev p).length = 16 := by
        simp [xorBytes_length, hprev, hp]
      obtain ⟨hE, hD⟩ := hC _ hx
      simp only [cbcEncrypt, cbcDecrypt, hD]
      rw [xorBytes_cancel prev p (by omega)]
      rw [ih _ hE (fun x hx2 => hall x (List.mem_cons_of_mem p hx2))]

/-- Round trip of the credential cipher pipeline for a lawful AES instance
and a 16-byte IV. -/
theorem decrypt_encrypt (C : BlockCipher) (hC : C.Lawful) (token iv : List Byte)
    (hiv : iv.length = 16) :
    decrypt C (encrypt C token iv) = some token := by
  have hblocks : ∀ b ∈ toBlocks (pad token), b.length = 16 :=
    toBlocks_mem_length (pad token) (pad_length_mod token)
  have hcs : ∀ c ∈ cbcEncrypt C.encryptBlock iv (toBlocks (pad token)), c.length = 16 :=
    cbcEncrypt_mem_length C hC _ iv hiv hblocks
  unfold encrypt decrypt
  rw [b64_roundtrip]
  simp only [List.take_left' hiv, List.drop_left' hiv]
  rw [toBlocks_flatten_of_blocks _ hcs]
  rw [cbcDecrypt_cbcEncrypt C hC _ iv hiv hblocks]
  rw [flatten_toBlocks]
  exact unpad_pad token

/-- Distinct IVs give distinct self-contained ciphertext strings, whatever
the block cipher does. -/
theorem encrypt_ne_of_iv_ne (C : BlockCipher) (token : List Byte) (iv1 iv2 : List Byte)
    (h1 : iv1.length = 16) (h2 : iv2.length = 16) (hne : iv1 ≠ iv2) :
    encrypt C token iv1 ≠ encrypt C token iv2 := by
  intro heq
  apply hne
  unfold encrypt at heq
  have hdata := b64Encode_injective false heq
  have htake := congrArg (List.take 16) hdata
  rwa [List.take_left' h1, List.take_left' h2] at htake

end TokenEncryption

/-! ## accounting/db/datastore.py — integration creation and its invariant -/

namespace AccountingDataStore

/-- The AccountingSystem enum of accounting_models.py. -/
inductive AccountingSystemTag where
  | quickbooks
  | xero
  | sage
deriving DecidableEq

/-- One row of the integration table (fields relevant to the modelled
operations). -/
structure IntegrationRow where
  id : Nat
  partner_id : Int
  accounting_system : AccountingSystemTag
  is_active : Bool
deriving DecidableEq

/-- The IntegrationCreate data (is_active defaults to True in the pydantic
model). -/
structure IntegrationCreate where
  partner_id : Int
  accounting_system : AccountingSystemTag
  is_active : Bool := true
deriving DecidableEq

/-- Errors surfaced by the modelled operations: DuplicateIntegrationError
(carrying the partner id) and sqlalchemy's MultipleResultsFound, which
scalar_one_or_none raises when more than one row matches and which
create_integration does not convert (only IntegrityError is). -/
inductive DatastoreFailure where
  | duplicateIntegration (partner_id : Int)
  | multipleResultsFound
deriving DecidableEq

/-- The rows matched by get_active_integration_by_partner's query: filtered
by partner_id and is_active only (the accounting system is not part of the
filter). -/
def activeRowsForPartner (store : List IntegrationRow) (pid : Int) : List IntegrationRow :=
  store.filter (fun r => r.partner_id == pid && r.is_active)

/-- get_active_integration_by_partner via scalar_one_or_none. -/
def get_active_integration_by_partner (store : List IntegrationRow) (pid : Int) :
    Except DatastoreFailure (Option IntegrationRow) :=
  match activeRowsForPartner store pid with
  | [] => .ok none
  | [r] => .ok (some r)
  | _ => .error .multipleResultsFound

/-- create_integration: check for an existing active integration of the
partner, raise DuplicateIntegrationError if one exists, otherwise insert.
The pair carries the call result and the store after the call. -/
def create_integration (store : List IntegrationRow) (newId : Nat)
    (data : IntegrationCreate) :
    Except DatastoreFailure IntegrationRow × List IntegrationRow :=
  match get_active_integration_by_partner store data.partner_id with
  | .error e => (.error e, store)
  | .ok (some _) => (.error (.duplicateIntegration data.partner_id), store)
  | .ok none =>
      let row : IntegrationRow :=
        { id := newId, partner_id := data.partner_id,
          accounting_system := data.accounting_system, is_active := data.is_active }
      (.ok row, store ++ [row])

/-- The spec invariant: at most one active integration per
(partner, accounting-system) pair. -/
def AtMostOneActivePerPair (store : List IntegrationRow) : Prop :=
  ∀ pid sys,
    (store.filter (fun r => r.partner_id == pid && r.is_active
      && r.accounting_system == sys)).length ≤ 1

end AccountingDataStore

/-! ## The QuickBooks customer parser and the sync orchestration -/

namespace QuickBooksSync

/-- One parsed customer row (AccountingClientData of integration_sync.py /
the plain dict of oauth_service._extract_customers): external id, display
name, optional parent reference id, active flag. -/
structure AccountingClientData where
  accounting_client_id : List Char
  display_name : List Char
  parent_ref : Option (List Char)
  is_active : Bool

/-- Errors escaping the parser: AttributeError when .get is called on a
non-dict, and the pydantic ValidationError when a field value does not fit
the declared str / str-or-None type. -/
inductive ParseFailure where
  | attributeError
  | validationError
deriving DecidableEq

/-- The per-row body of the parse loop, after the falsy-Id continue: the
display name chain DisplayName or FullyQualifiedName or str(Id), and
ParentRef.value when ParentRef is a dict. -/
def parseCustomerRow (cf : List (List Char × Json)) : Except ParseFailure AccountingClientData :=
  let customer_id := dictGet cf "Id".data
  let display_name := truthyOr (dictGet cf "DisplayName".data)
    (truthyOr (dictGet cf "FullyQualifiedName".data) (.str (pyStr customer_id)))
  let parent_data := dictGet cf "ParentRef".data
  let parent_ref : Json :=
    match parent_data with
    | .obj pf => dictGet pf "value".data
    | _ => .null
  match display_name, parent_ref with
  | .str dn, .null => .ok ⟨pyStr customer_id, dn, none, true⟩
  | .str dn, .str pr => .ok ⟨pyStr customer_id, dn, some pr, true⟩
  | _, _ => .error .validationError

/-- The loop over the customer list. -/
def parseCustomers : List Json → Except ParseFailure (List AccountingClientData)
  | [] => .ok []
  | customer :: rest =>
    match customer with
    | .obj cf =>
      if jsonTruthy (dictGet cf "Id".data) = false then parseCustomers rest
      else
        match parseCustomerRow cf with
        | .error e => .error e
        | .ok row =>
          match parseCustomers rest with
          | .error e => .error e
          | .ok tl => .ok (row :: tl)
    | _ => .error .attributeError

/-- _parse_qbo_customers(data): drill into QueryResponse.Customer with the
source's defaults and type guards, then run the row loop. -/
def parse_qbo_customers (data : Json) : Except ParseFailure (List AccountingClientData) :=
  match data with
  | .obj topFields =>
    match dictGetD topFields "QueryResponse".data (.obj []) with
    | .obj qf =>
      match dictGetD qf "Customer".data (.arr []) with
      | .arr customers => parseCustomers customers
      | _ => .ok []
    | _ => .error .attributeError
  | _ => .ok []

end QuickBooksSync

namespace OAuthService

/-- Constant strings of accounting/common/constants.py used by the sync. -/
def companyInfoFetchFailed : List Char := "company_info_fetch_failed".data

def initialDataFetchFailed : List Char := "initial_data_fetch_failed".data

def fullySynced : List Char := "fully_synced".data

def syncError : List Char := "sync_error".data

/-- One client dict built by _extract_customers (no pydantic validation
here, values are kept as they come). -/
structure ClientRow where
  accounting_client_id : List Char
  display_name : Json
  parent_ref : Json

/-- The row loop of _extract_customers. -/
def extractLoop : List Json → Except PyExn (List ClientRow)
  | [] => .ok []
  | customer :: rest =>
    match customer with
    | .obj cf =>
      if jsonTruthy (dictGet cf "Id".data) = false then extractLoop rest
      else
        let customer_id := dictGet cf "Id".data
        let display_name := truthyOr (dictGet cf "DisplayName".data)
          (truthyOr (dictGet cf "FullyQualifiedName".data) (.str (pyStr customer_id)))
        let parent_ref : Json :=
          match dictGet cf "ParentRef".data with
          | .obj pf => dictGet pf "value".data
          | _ => .null
        match extractLoop rest with
        | .error e => .error e
        | .ok tl => .ok (⟨pyStr customer_id, display_name, parent_ref⟩ :: tl)
    | _ => .error .attributeError

/-- OAuthService._extract_customers(data). -/
def extract_customers (data : Json) : Except PyExn (List ClientRow) :=
  match data with
  | .obj topFields =>
    match dictGetD topFields "QueryResponse".data (.obj []) with
    | .obj qf =>
      match dictGetD qf "Customer".data (.arr []) with
      | .arr customers => extractLoop customers
      | _ => .ok []
    | _ => .error .attributeError
  | _ => .ok []

/-- The notification payload fields computed by process_initial_sync. -/
structure SyncPayload where
  company_name : List Char
  status : List Char
  errors : List (List Char)
  accounting_clients : List ClientRow

/-- process_initial_sync, with its two outbound strategy calls and the
company-name datastore update as outcome parameters (any raised exception is
the .error case). The company try-block assigns company_name from the fetch
before the truthiness-guarded datastore update, so a failed update keeps the
fetched name but still records the company-info error code; the data
try-block parses inside itself, so an extractor exception is recorded as the
initial-data error with an empty client list. -/
def process_initial_sync (defaultName : List Char)
    (companyFetch : Except Unit (List Char))
    (updateCompany : Except Unit Unit)
    (dataFetch : Except Unit Json) : SyncPayload :=
  let step1 : List Char × List (List Char) :=
    match companyFetch with
    | .error _ => (defaultName, [companyInfoFetchFailed])
    | .ok name =>
      if name.isEmpty then (name, [])
      else
        match updateCompany with
        | .error _ => (name, [companyInfoFetchFailed])
        | .ok _ => (name, [])
  let step2 : List ClientRow × List (List Char) :=
    match dataFetch with
    | .error _ => ([], [initialDataFetchFailed])
    | .ok d =>
      match extract_customers d with
      | .error _ => ([], [initialDataFetchFailed])
      | .ok clients => (clients, [])
  let errors := step1.2 ++ step2.2
  { company_name := step1.1
    status := if errors.isEmpty then fullySynced else syncError
    errors := errors
    accounting_clients := step2.1 }

end OAuthService

/-! ## Claim theorems -/

theorem set_ne_of_ne_get {l : List Char} {i : Nat} (hi : i < l.length) {c : Char}
    (hc : c ≠ l.get ⟨i, hi⟩) : l.set i c ≠ l := by
  intro h
  apply hc
  have h2 := congrArg (fun t => t[i]?) h
  simp only [List.getElem?_set_self hi] at h2
  rw [List.getElem?_eq_getElem hi] at h2
  exact Option.some_inj.mp h2

/-- Helper: the timestamp logic of verify_state evaluated on the payload
shape built by generate_state. -/
theorem timestampCheck_statePayload (now : Int) (pid sys : List Char) (t : Int) :
    OauthState.timestampCheck now (OauthState.statePayload pid sys t) =
      if t = 0 then .ok none
      else if now - t > 600 then .ok none
      else .ok (some (OauthState.statePayload pid sys t)) := by
  simp [OauthState.timestampCheck, OauthState.statePayload, dictGet, List.find?]

/-- Witness collaborators for the Fernet state manager claims. -/
def c1libs : OAuthStateManager.Libs :=
  { fernetEncrypt := fun _ => "token".data
    fernetDecrypt := fun _ => some [byteOf 0]
    jsonDumps := fun _ => [byteOf 0]
    jsonLoads := fun _ => some (OAuthStateManager.statePayload 7 "cb".data "quickbooks".data 1000) }

/-- C1: State token round-trip — for every valid (partner_id, accounting
system, callback_uri) and generation time, validating a token produced by
generate_state (validated while the token is within its TTL, on a clock that
has not gone backwards) succeeds and returns a payload carrying exactly the
partner_id, callback_uri and accounting_system fields plus a timestamp that
is at most the current time; the Fernet and JSON codec library contracts at
this payload are hypotheses. -/
theorem claim_C1 (L : OAuthStateManager.Libs) (partner_id : Int)
    (callback_uri accounting_system : List Char) (tGen vNow : Int)
    (hfernet : L.fernetDecrypt (L.fernetEncrypt (L.jsonDumps
        (OAuthStateManager.statePayload partner_id callback_uri accounting_system tGen)))
      = some (L.jsonDumps (OAuthStateManager.statePayload partner_id callback_uri accounting_system tGen)))
    (hjson : L.jsonLoads (L.jsonDumps (OAuthStateManager.statePayload partner_id callback_uri accounting_system tGen))
      = some (OAuthStateManager.statePayload partner_id callback_uri accounting_system tGen))
    (hmono : tGen ≤ vNow) (httl : vNow - tGen ≤ 600) :
    OAuthStateManager.validate_state L vNow
        (OAuthStateManager.generate_state L partner_id callback_uri accounting_system tGen)
      = .ok (.obj [("partner_id".data, .int partner_id),
                   ("callback_uri".data, .str callback_uri),
                   ("accounting_system".data, .str accounting_system),
                   ("timestamp".data, .int tGen)])
    ∧ tGen ≤ vNow := by
  refine ⟨?_, hmono⟩
  rw [OAuthStateManager.validate_generate L partner_id callback_uri accounting_system tGen vNow hfernet hjson]
  rw [if_neg (by simp only [OAuthStateManager.ttl_seconds]; omega)]
  rfl

theorem claim_C1_witness :
    OAuthStateManager.validate_state c1libs 1000
        (OAuthStateManager.generate_state c1libs 7 "cb".data "quickbooks".data 1000)
      = .ok (.obj [("partner_id".data, .int 7),
                   ("callback_uri".data, .str "cb".data),
                   ("accounting_system".data, .str "quickbooks".data),
                   ("timestamp".data, .int 1000)])
    ∧ (1000 : Int) ≤ 1000 :=
  claim_C1 c1libs 7 "cb".data "quickbooks".data 1000 1000 rfl rfl (by omega) (by omega)

/-- Witness collaborators for the HMAC codec claims: a sha256-shaped digest
function and a JSON codec fixed at the relevant payloads. -/
def c3libs : OauthState.Libs :=
  { hmacSha256 := fun _ _ => List.replicate 32 (byteOf 0)
    jsonDumps := fun _ => [byteOf 53]
    jsonLoads := fun _ => some (OauthState.statePayload "p1".data "quickbooks".data 1000) }

/-- C3: State TTL boundary — a token generated at tGen and validated more
than 600 seconds later fails (None from verify_state, the distinct
ValueError("State expired") from the manager), and one validated at most
TTL minus one second after generation, carrying a valid signature, succeeds;
stated for both the HMAC codec of accounting/utils/oauth_state.py and the
Fernet manager of oauth_state_manager.py, under the library codec contracts
and a positive generation timestamp. -/
theorem claim_C3 (Lh : OauthState.Libs) (secret pid sys : List Char)
    (Lm : OAuthStateManager.Libs) (mpid : Int) (cb msys : List Char)
    (tGen vNow : Int) (hpos : 0 < tGen)
    (hjson : Lh.jsonLoads (Lh.jsonDumps (OauthState.statePayload pid sys tGen))
      = some (OauthState.statePayload pid sys tGen))
    (hfernet : Lm.fernetDecrypt (Lm.fernetEncrypt (Lm.jsonDumps
        (OAuthStateManager.statePayload mpid cb msys tGen)))
      = some (Lm.jsonDumps (OAuthStateManager.statePayload mpid cb msys tGen)))
    (hmjson : Lm.jsonLoads (Lm.jsonDumps (OAuthStateManager.statePayload mpid cb msys tGen))
      = some (OAuthStateManager.statePayload mpid cb msys tGen)) :
    (vNow - tGen > 600 →
        OauthState.verify_state Lh secret vNow
            (OauthState.generate_state Lh secret pid sys tGen) = .ok none
      ∧ OAuthStateManager.validate_state Lm vNow
            (OAuthStateManager.generate_state Lm mpid cb msys tGen)
          = .error .stateExpired)
  ∧ (vNow - tGen ≤ 599 →
        OauthState.verify_state Lh secret vNow
            (OauthState.generate_state Lh secret pid sys tGen)
          = .ok (some (OauthState.statePayload pid sys tGen))
      ∧ OAuthStateManager.validate_state Lm vNow
            (OAuthStateManager.generate_state Lm mpid cb msys tGen)
          = .ok (OAuthStateManager.statePayload mpid cb msys tGen)) := by
  have hverify := OauthState.verify_signedToken Lh secret vNow
    (OauthState.statePayload pid sys tGen) hjson
  have hvalidate := OAuthStateManager.validate_generate Lm mpid cb msys tGen vNow hfernet hmjson
  constructor
  · intro hexp
    constructor
    · rw [OauthState.generate_state, hverify, timestampCheck_statePayload]
      rw [if_neg (by omega), if_pos (by omega)]
    · rw [hvalidate, if_pos (by simp only [OAuthStateManager.ttl_seconds]; omega)]
  · intro hfresh
    constructor
    · rw [OauthState.generate_state, hverify, timestampCheck_statePayload]
      rw [if_neg (by omega), if_neg (by omega)]
    · rw [hvalidate, if_neg (by simp only [OAuthStateManager.ttl_seconds]; omega)]

theorem claim_C3_witness :
    ((1700 : Int) - 1000 > 600 →
        OauthState.verify_state c3libs "secret".data 1700
            (OauthState.generate_state c3libs "secret".data "p1".data "quickbooks".data 1000) = .ok none
      ∧ OAuthStateManager.validate_state c1libs 1700
            (OAuthStateManager.generate_state c1libs 7 "cb".data "quickbooks".data 1000)
          = .error .stateExpired)
  ∧ ((1700 : Int) - 1000 ≤ 599 →
        OauthState.verify_state c3libs "secret".data 1700
            (OauthState.generate_state c3libs "secret".data "p1".data "quickbooks".data 1000)
          = .ok (some (OauthState.statePayload "p1".data "quickbooks".data 1000))
      ∧ OAuthStateManager.validate_state c1libs 1700
            (OAuthStateManager.generate_state c1libs 7 "cb".data "quickbooks".data 1000)
          = .ok (OAuthStateManager.statePayload 7 "cb".data "quickbooks".data 1000)) :=
  claim_C3 c3libs "secret".data "p1".data "quickbooks".data c1libs 7 "cb".data "quickbooks".data
    1000 1700 (by omega) rfl rfl rfl

/-- C4 counterexample: changing one character of a generated token signature
portion to a non-ASCII character does not make validation return a failure
value — hmac.compare_digest, which runs outside any try block, raises an
uncaught TypeError on non-ASCII str arguments, so verify_state escapes with
an exception instead of returning None as the claim states. -/
theorem claim_C4_counterexample :
    OauthState.verify_state c3libs "secret".data 1000
        (b64Encode true (c3libs.jsonDumps (OauthState.statePayload "p1".data "quickbooks".data 1000)) ++ '.' ::
          (OauthState.signatureOf c3libs "secret".data
            (b64Encode true (c3libs.jsonDumps (OauthState.statePayload "p1".data "quickbooks".data 1000)))).set 0 '\u00e9')
      = .error .typeError
    ∧ (Except.error PyExn.typeError : Except PyExn (Option Json)) ≠ .ok none := by
  constructor
  · rfl
  · simp

/-- C4 amended: for every generated token, changing any single character of
the signature portion never yields a payload: an ASCII replacement makes
verify_state return the failure None (the recomputed expected signature
equals the original signature, so the modified one cannot match), while a
non-ASCII replacement raises the uncaught TypeError of hmac.compare_digest
instead of returning. -/
theorem claim_C4_amended (L : OauthState.Libs) (secret pid sys : List Char) (tGen now : Int)
    (i : Nat) (c : Char)
    (hi : i < (OauthState.signatureOf L secret
        (b64Encode true (L.jsonDumps (OauthState.statePayload pid sys tGen)))).length)
    (hc : c ≠ (OauthState.signatureOf L secret
        (b64Encode true (L.jsonDumps (OauthState.statePayload pid sys tGen)))).get ⟨i, hi⟩) :
    OauthState.generate_state L secret pid sys tGen
      = b64Encode true (L.jsonDumps (OauthState.statePayload pid sys tGen)) ++ '.' ::
          OauthState.signatureOf L secret
            (b64Encode true (L.jsonDumps (OauthState.statePayload pid sys tGen)))
    ∧ (c.toNat < 128 →
        OauthState.verify_state L secret now
          (b64Encode true (L.jsonDumps (OauthState.statePayload pid sys tGen)) ++ '.' ::
            (OauthState.signatureOf L secret
              (b64Encode true (L.jsonDumps (OauthState.statePayload pid sys tGen)))).set i c)
          = .ok none)
    ∧ (128 ≤ c.toNat →
        OauthState.verify_state L secret now
          (b64Encode true (L.jsonDumps (OauthState.statePayload pid sys tGen)) ++ '.' ::
            (OauthState.signatureOf L secret
              (b64Encode true (L.jsonDumps (OauthState.statePayload pid sys tGen)))).set i c)
          = .error .typeError)
    ∧ (∀ p, OauthState.verify_state L secret now
          (b64Encode true (L.jsonDumps (OauthState.statePayload pid sys tGen)) ++ '.' ::
            (OauthState.signatureOf L secret
              (b64Encode true (L.jsonDumps (OauthState.statePayload pid sys tGen)))).set i c)
          ≠ .ok (some p)) := by
  have hne := set_ne_of_ne_get hi hc
  have hascii : c.toNat < 128 →
      OauthState.verify_state L secret now
        (b64Encode true (L.jsonDumps (OauthState.statePayload pid sys tGen)) ++ '.' ::
          (OauthState.signatureOf L secret
            (b64Encode true (L.jsonDumps (OauthState.statePayload pid sys tGen)))).set i c)
        = .ok none := by
    intro hA
    have hcmp : compare_digest
        ((OauthState.signatureOf L secret
          (b64Encode true (L.jsonDumps (OauthState.statePayload pid sys tGen)))).set i c)
        (OauthState.signatureOf L secret
          (b64Encode true (L.jsonDumps (OauthState.statePayload pid sys tGen))))
        = .ok false := by
      rw [compare_digest,
        if_pos (by rw [isAsciiStr_set (OauthState.isAsciiStr_signatureOf L secret _) hA,
          OauthState.isAsciiStr_signatureOf]; rfl)]
      congr 1
      exact beq_eq_false_iff_ne.mpr hne
    unfold OauthState.verify_state
    rw [splitFirstDot_append _ (b64Encode_no_dot true _)]
    simp only []
    rw [hcmp]
  have hnon : 128 ≤ c.toNat →
      OauthState.verify_state L secret now
        (b64Encode true (L.jsonDumps (OauthState.statePayload pid sys tGen)) ++ '.' ::
          (OauthState.signatureOf L secret
            (b64Encode true (L.jsonDumps (OauthState.statePayload pid sys tGen)))).set i c)
        = .error .typeError := by
    intro hA
    have hcmp : compare_digest
        ((OauthState.signatureOf L secret
          (b64Encode true (L.jsonDumps (OauthState.statePayload pid sys tGen)))).set i c)
        (OauthState.signatureOf L secret
          (b64Encode true (L.jsonDumps (OauthState.statePayload pid sys tGen))))
        = .error .typeError := by
      rw [compare_digest, if_neg (by rw [isAsciiStr_set_false hi hA]; simp)]
    unfold OauthState.verify_state
    rw [splitFirstDot_append _ (b64Encode_no_dot true _)]
    simp only []
    rw [hcmp]
  refine ⟨rfl, hascii, hnon, ?_⟩
  intro p hp
  by_cases hA : c.toNat < 128
  · rw [hascii hA] at hp
    exact absurd hp (by simp)
  · rw [hnon (by omega)] at hp
    exact absurd hp (by simp)

theorem claim_C4_amended_witness :
    OauthState.generate_state c3libs "secret".data "p1".data "quickbooks".data 1000
      = b64Encode true (c3libs.jsonDumps (OauthState.statePayload "p1".data "quickbooks".data 1000)) ++ '.' ::
          OauthState.signatureOf c3libs "secret".data
            (b64Encode true (c3libs.jsonDumps (OauthState.statePayload "p1".data "quickbooks".data 1000)))
    ∧ ((Char.toNat 'x') < 128 →
        OauthState.verify_state c3libs "secret".data 1000
          (b64Encode true (c3libs.jsonDumps (OauthState.statePayload "p1".data "quickbooks".data 1000)) ++ '.' ::
            (OauthState.signatureOf c3libs "secret".data
              (b64Encode true (c3libs.jsonDumps (OauthState.statePayload "p1".data "quickbooks".data 1000)))).set 0 'x')
          = .ok none)
    ∧ (128 ≤ (Char.toNat 'x') →
        OauthState.verify_state c3libs "secret".data 1000
          (b64Encode true (c3libs.jsonDumps (OauthState.statePayload "p1".data "quickbooks".data 1000)) ++ '.' ::
            (OauthState.signatureOf c3libs "secret".data
              (b64Encode true (c3libs.jsonDumps (OauthState.statePayload "p1".data "quickbooks".data 1000)))).set 0 'x')
          = .error .typeError)
    ∧ (∀ p, OauthState.verify_state c3libs "secret".data 1000
          (b64Encode true (c3libs.jsonDumps (OauthState.statePayload "p1".data "quickbooks".data 1000)) ++ '.' ::
            (OauthState.signatureOf c3libs "secret".data
              (b64Encode true (c3libs.jsonDumps (OauthState.statePayload "p1".data "quickbooks".data 1000)))).set 0 'x')
          ≠ .ok (some p)) :=
  claim_C4_amended c3libs "secret".data "p1".data "quickbooks".data 1000 1000 0 'x'
    (by decide) (by decide)

/-- C10: verify_state rejects correctly signed tokens without a positive
timestamp — for every payload object whose "timestamp" entry is absent or
falsy (None, 0, False, an empty container), the signed token passes the
signature check yet verify_state returns None, at any validation time. -/
theorem claim_C10 (L : OauthState.Libs) (secret : List Char) (now : Int)
    (fields : List (List Char × Json))
    (hjson : L.jsonLoads (L.jsonDumps (.obj fields)) = some (.obj fields))
    (hfalsy : jsonTruthy (dictGet fields "timestamp".data) = false) :
    OauthState.verify_state L secret now (OauthState.signedToken L secret (.obj fields))
      = .ok none := by
  rw [OauthState.verify_signedToken L secret now (.obj fields) hjson]
  simp only [OauthState.timestampCheck]
  cases h : dictGet fields "timestamp".data with
  | null => rfl
  | bool b => rw [h] at hfalsy; simp [jsonTruthy] at hfalsy; simp [hfalsy]
  | int n => rw [h] at hfalsy; simp [jsonTruthy] at hfalsy; simp [hfalsy]
  | str s => rw [h] at hfalsy; simp [jsonTruthy] at hfalsy; simp [hfalsy]
  | arr xs => rw [h] at hfalsy; simp [jsonTruthy] at hfalsy; simp [hfalsy]
  | obj fs => rw [h] at hfalsy; simp [jsonTruthy] at hfalsy; simp [hfalsy]

/-- Witness collaborators for C10: the JSON codec fixed at the payload
object with a zero timestamp. -/
def c10libs : OauthState.Libs :=
  { hmacSha256 := fun _ _ => List.replicate 32 (byteOf 0)
    jsonDumps := fun _ => [byteOf 53]
    jsonLoads := fun _ => some (.obj [("timestamp".data, .int 0)]) }

theorem claim_C10_witness :
    OauthState.verify_state c10libs "secret".data 0
        (OauthState.signedToken c10libs "secret".data (.obj [("timestamp".data, .int 0)]))
      = .ok none :=
  claim_C10 c10libs "secret".data 0 [("timestamp".data, .int 0)] rfl (by decide)

/-- Collaborators exhibiting the C8 escape: the JSON codec fixed at the
bytes of "5", which json.loads decodes to the integer 5 — valid JSON that is
not an object. -/
def c8libs : OauthState.Libs :=
  { hmacSha256 := fun _ _ => List.replicate 32 (byteOf 0)
    jsonDumps := fun _ => [byteOf 53]
    jsonLoads := fun _ => some (.int 5) }

/-- C8 counterexample: a correctly signed token whose payload is valid JSON
but not an object makes verify_state raise an uncaught AttributeError at
payload.get — it escapes rather than returning a structured failure, so
validation is not total over all input strings. -/
theorem claim_C8_counterexample :
    OauthState.verify_state c8libs "secret".data 0
        (OauthState.signedToken c8libs "secret".data (.int 5))
      = .error .attributeError
    ∧ OauthState.signedToken c8libs "secret".data (.int 5)
      = "NQ==.".data ++ List.replicate 64 '0' := by
  constructor
  · rw [OauthState.verify_signedToken c8libs "secret".data 0 (.int 5) rfl]
    rfl
  · decide

/-- C8 amended: for every input string, verify_state returns the structured
failure None or a payload, with exactly two escape families: the TypeError
that hmac.compare_digest (outside any try block) raises when the part after
the first dot contains a non-ASCII character, and the uncaught
AttributeError / TypeError on inputs carrying a valid HMAC signature over
their payload part (signed non-object payload, signed truthy non-numeric
timestamp). The empty string gets the structured None. -/
theorem claim_C8_amended (L : OauthState.Libs) (secret : List Char) (now : Int)
    (state : List Char) :
    (∀ e, OauthState.verify_state L secret now state = .error e →
      ∃ pb sig, splitFirstDot state = some (pb, sig)
        ∧ (isAsciiStr sig = false ∨ sig = OauthState.signatureOf L secret pb))
  ∧ OauthState.verify_state L secret now [] = .ok none := by
  refine ⟨?_, rfl⟩
  intro e h
  cases hsplit : splitFirstDot state with
  | none =>
      have hval : OauthState.verify_state L secret now state = .ok none := by
        unfold OauthState.verify_state
        rw [hsplit]
      rw [hval] at h
      exact absurd h (by simp)
  | some ps =>
      obtain ⟨pb, sig⟩ := ps
      refine ⟨pb, sig, rfl, ?_⟩
      cases hsA : isAsciiStr sig with
      | false => exact Or.inl rfl
      | true =>
          right
          by_cases heq : sig = OauthState.signatureOf L secret pb
          · exact heq
          · exfalso
            have hcmp : compare_digest sig (OauthState.signatureOf L secret pb)
                = .ok false := by
              rw [compare_digest,
                if_pos (by rw [hsA, OauthState.isAsciiStr_signatureOf]; rfl)]
              congr 1
              exact beq_eq_false_iff_ne.mpr heq
            have hval : OauthState.verify_state L secret now state = .ok none := by
              unfold OauthState.verify_state
              rw [hsplit]
              simp only []
              rw [hcmp]
            rw [hval] at h
            exact absurd h (by simp)

theorem claim_C8_amended_witness :
    ∃ pb sig,
      splitFirstDot (OauthState.signedToken c8libs "secret".data (.int 5)) = some (pb, sig)
      ∧ (isAsciiStr sig = false ∨ sig = OauthState.signatureOf c8libs "secret".data pb) :=
  (claim_C8_amended c8libs "secret".data 0
    (OauthState.signedToken c8libs "secret".data (.int 5))).1 .attributeError
    (by rw [OauthState.verify_signedToken c8libs "secret".data 0 (.int 5) rfl]; rfl)

/-- C2: Credential cipher round-trip — for every plaintext byte string
(covering the UTF-8 encodings of the empty string, unicode strings, and
strings longer than 500 characters) and every 16-byte IV, decrypting the
result of TokenEncryption.encrypt returns the plaintext, for any AES
instance satisfying the library contract of a length-preserving invertible
16-byte block permutation. -/
theorem claim_C2 (C : TokenEncryption.BlockCipher) (hC : C.Lawful)
    (token iv : List Byte) (hiv : iv.length = 16) :
    TokenEncryption.decrypt C (TokenEncryption.encrypt C token iv) = some token :=
  TokenEncryption.decrypt_encrypt C hC token iv hiv

/-- The identity block cipher, which satisfies the block-cipher contract. -/
def idCipher : TokenEncryption.BlockCipher :=
  { encryptBlock := fun b => b, decryptBlock := fun b => b }

theorem claim_C2_witness :
    TokenEncryption.decrypt idCipher
        (TokenEncryption.encrypt idCipher [byteOf 104, byteOf 105] (List.replicate 16 (byteOf 0)))
      = some [byteOf 104, byteOf 105] :=
  claim_C2 idCipher (fun _ h => ⟨h, rfl⟩) [byteOf 104, byteOf 105]
    (List.replicate 16 (byteOf 0)) (by simp)

/-- C9: Encryption nondeterminism — for every plaintext and every pair of
distinct 16-byte IVs, the two self-contained ciphertext strings produced by
TokenEncryption.encrypt differ, whatever the AES instance does: the IV is
embedded in the base64 output, and the base64 encoding is injective. -/
theorem claim_C9 (C : TokenEncryption.BlockCipher) (token : List Byte)
    (iv1 iv2 : List Byte) (h1 : iv1.length = 16) (h2 : iv2.length = 16)
    (hne : iv1 ≠ iv2) :
    TokenEncryption.encrypt C token iv1 ≠ TokenEncryption.encrypt C token iv2 :=
  TokenEncryption.encrypt_ne_of_iv_ne C token iv1 iv2 h1 h2 hne

theorem claim_C9_witness :
    TokenEncryption.encrypt idCipher [byteOf 104] (List.replicate 16 (byteOf 0))
      ≠ TokenEncryption.encrypt idCipher [byteOf 104] (byteOf 1 :: List.replicate 15 (byteOf 0)) :=
  claim_C9 idCipher [byteOf 104] (List.replicate 16 (byteOf 0))
    (byteOf 1 :: List.replicate 15 (byteOf 0)) (by simp) (by simp) (by decide)

/-- C5: Duplicate-integration rejection with atomicity — when the partner of
the request already has an active integration for the same accounting
system (and the reachable-state invariant that the duplicate check can
observe it: the partner's active rows are exactly that one row, which
create_integration itself maintains since any active row blocks a new
insert), create_integration fails with DuplicateIntegrationError carrying
the partner id, leaves the store unchanged — so no second active row exists
and at most one active integration per (partner, accounting-system) pair is
preserved. -/
theorem claim_C5 (store : List AccountingDataStore.IntegrationRow) (newId : Nat)
    (data : AccountingDataStore.IntegrationCreate)
    (r : AccountingDataStore.IntegrationRow)
    (hact : AccountingDataStore.activeRowsForPartner store data.partner_id = [r])
    (hsys : r.accounting_system = data.accounting_system) :
    AccountingDataStore.create_integration store newId data
      = (.error (.duplicateIntegration data.partner_id), store)
    ∧ (AccountingDataStore.create_integration store newId data).2 = store
    ∧ (AccountingDataStore.AtMostOneActivePerPair store →
        AccountingDataStore.AtMostOneActivePerPair
          (AccountingDataStore.create_integration store newId data).2) := by
  have hcreate : AccountingDataStore.create_integration store newId data
      = (.error (.duplicateIntegration data.partner_id), store) := by
    unfold AccountingDataStore.create_integration
      AccountingDataStore.get_active_integration_by_partner
    rw [hact]
  refine ⟨hcreate, ?_, ?_⟩
  · rw [hcreate]
  · intro hinv
    rw [hcreate]
    exact hinv

theorem claim_C5_witness :
    AccountingDataStore.create_integration
        [⟨1, 7, AccountingDataStore.AccountingSystemTag.quickbooks, true⟩] 2
        ⟨7, AccountingDataStore.AccountingSystemTag.quickbooks, true⟩
      = (.error (.duplicateIntegration 7),
         [⟨1, 7, AccountingDataStore.AccountingSystemTag.quickbooks, true⟩])
    ∧ (AccountingDataStore.create_integration
        [⟨1, 7, AccountingDataStore.AccountingSystemTag.quickbooks, true⟩] 2
        ⟨7, AccountingDataStore.AccountingSystemTag.quickbooks, true⟩).2
      = [⟨1, 7, AccountingDataStore.AccountingSystemTag.quickbooks, true⟩]
    ∧ (AccountingDataStore.AtMostOneActivePerPair
        [⟨1, 7, AccountingDataStore.AccountingSystemTag.quickbooks, true⟩] →
       AccountingDataStore.AtMostOneActivePerPair
        (AccountingDataStore.create_integration
          [⟨1, 7, AccountingDataStore.AccountingSystemTag.quickbooks, true⟩] 2
          ⟨7, AccountingDataStore.AccountingSystemTag.quickbooks, true⟩).2) :=
  claim_C5 [⟨1, 7, AccountingDataStore.AccountingSystemTag.quickbooks, true⟩] 2
    ⟨7, AccountingDataStore.AccountingSystemTag.quickbooks, true⟩
    ⟨1, 7, AccountingDataStore.AccountingSystemTag.quickbooks, true⟩ rfl rfl

/-- A customer-list response whose single included row has DisplayName
present but empty, FullyQualifiedName "X"; plus a row with the falsy id 0
and a row with no Id. -/
def c6Response : Json :=
  .obj [("QueryResponse".data, .obj [("Customer".data, .arr
    [ .obj [("Id".data, .str "1".data), ("DisplayName".data, .str []),
            ("FullyQualifiedName".data, .str "X".data)],
      .obj [("Id".data, .int 0), ("DisplayName".data, .str "Zero".data)],
      .obj [("DisplayName".data, .str "NoId".data)] ])])]

/-- C6 counterexample: the parser does not use the DisplayName field when it
is present but empty — the first row's display name comes out as the
FullyQualifiedName "X", not the present DisplayName "" — and the second
row, which has an Id (the falsy integer 0), is excluded, against the
claim that every row with an id is included and that the display name is
the DisplayName field whenever present. -/
theorem claim_C6_counterexample :
    QuickBooksSync.parse_qbo_customers c6Response
      = .ok [⟨"1".data, "X".data, none, true⟩]
    ∧ "X".data ≠ ([] : List Char) := by
  constructor
  · rfl
  · decide

/-- Spec side of the amended C6, written from the amended claim: the display
name is the DisplayName field when truthy, else the FullyQualifiedName field
when truthy, else str(Id). -/
def specDisplayName (cf : List (List Char × Json)) : Json :=
  if jsonTruthy (dictGet cf "DisplayName".data) then dictGet cf "DisplayName".data
  else if jsonTruthy (dictGet cf "FullyQualifiedName".data) then dictGet cf "FullyQualifiedName".data
  else .str (pyStr (dictGet cf "Id".data))

/-- Spec side of the amended C6: the parent reference is ParentRef.value
when ParentRef is a dict, else None. -/
def specParentRef (cf : List (List Char × Json)) : Json :=
  match dictGet cf "ParentRef".data with
  | .obj pf => dictGet pf "value".data
  | _ => .null

/-- Spec side of the amended C6 for one row: skipped when the Id is absent
or falsy, else included with the display-name chain and optional parent
reference (none here means an ill-typed row, excluded by hypothesis). -/
def specClientOfRow (cf : List (List Char × Json)) : Option QuickBooksSync.AccountingClientData :=
  if jsonTruthy (dictGet cf "Id".data) = false then none
  else
    match specDisplayName cf, specParentRef cf with
    | .str dn, .null => some ⟨pyStr (dictGet cf "Id".data), dn, none, true⟩
    | .str dn, .str pr => some ⟨pyStr (dictGet cf "Id".data), dn, some pr, true⟩
    | _, _ => none

theorem parseCustomerRow_spec (cf : List (List Char × Json))
    (row : QuickBooksSync.AccountingClientData)
    (hrow : specClientOfRow cf = some row) :
    QuickBooksSync.parseCustomerRow cf = .ok row := by
  unfold specClientOfRow at hrow
  by_cases hid : jsonTruthy (dictGet cf "Id".data) = false
  · rw [if_pos hid] at hrow
    exact absurd hrow (by simp)
  · rw [if_neg hid] at hrow
    unfold QuickBooksSync.parseCustomerRow
    dsimp only
    rw [show truthyOr (dictGet cf "DisplayName".data)
          (truthyOr (dictGet cf "FullyQualifiedName".data)
            (.str (pyStr (dictGet cf "Id".data)))) = specDisplayName cf from rfl]
    rw [show (match dictGet cf "ParentRef".data with
              | .obj pf => dictGet pf "value".data
              | _ => .null) = specParentRef cf from rfl]
    cases hd : specDisplayName cf <;> rw [hd] at hrow <;>
      cases hp : specParentRef cf <;> rw [hp] at hrow <;>
      simp_all

theorem parseCustomers_spec (rows : List (List (List Char × Json)))
    (hty : ∀ cf ∈ rows, jsonTruthy (dictGet cf "Id".data) = true → (specClientOfRow cf).isSome) :
    QuickBooksSync.parseCustomers (rows.map Json.obj) = .ok (rows.filterMap specClientOfRow) := by
  induction rows with
  | nil => rfl
  | cons cf rest ih =>
      have hrest := ih (fun x hx h => hty x (List.mem_cons_of_mem cf hx) h)
      simp only [List.map_cons, List.filterMap_cons]
      unfold QuickBooksSync.parseCustomers
      dsimp only
      by_cases hid : jsonTruthy (dictGet cf "Id".data) = false
      · rw [if_pos hid]
        rw [show specClientOfRow cf = none from by simp [specClientOfRow, hid]]
        exact hrest
      · rw [if_neg hid]
        have hsome := hty cf (List.mem_cons_self cf rest) (by simpa using hid)
        obtain ⟨row, hrow⟩ := Option.isSome_iff_exists.mp hsome
        rw [parseCustomerRow_spec cf row hrow, hrest, hrow]

/-- C6 amended: in every provider customer-list response (rows as objects),
a row whose Id is absent or falsy is skipped and every row with a truthy Id
is included; an included row's display name is the DisplayName field when
truthy, falling back to the FullyQualifiedName field when truthy, falling
back to the string form of the id; the optional parent reference id is the
nested ParentRef.value field when ParentRef is a dict. Rows are assumed
well-typed for the declared pydantic field types. -/
theorem claim_C6_amended (rows : List (List (List Char × Json)))
    (hty : ∀ cf ∈ rows, jsonTruthy (dictGet cf "Id".data) = true → (specClientOfRow cf).isSome) :
    QuickBooksSync.parse_qbo_customers
        (.obj [("QueryResponse".data, .obj [("Customer".data, .arr (rows.map Json.obj))])])
      = .ok (rows.filterMap specClientOfRow) := by
  have hwrap : QuickBooksSync.parse_qbo_customers
      (.obj [("QueryResponse".data, .obj [("Customer".data, .arr (rows.map Json.obj))])])
      = QuickBooksSync.parseCustomers (rows.map Json.obj) := rfl
  rw [hwrap]
  exact parseCustomers_spec rows hty

theorem claim_C6_amended_witness :
    QuickBooksSync.parse_qbo_customers
        (.obj [("QueryResponse".data, .obj [("Customer".data, .arr
          ([[("Id".data, Json.str "1".data)],
            [("Id".data, Json.int 0)]].map Json.obj))])])
      = .ok ([[("Id".data, Json.str "1".data)],
              [("Id".data, Json.int 0)]].filterMap specClientOfRow) :=
  claim_C6_amended [[("Id".data, Json.str "1".data)], [("Id".data, Json.int 0)]] (by decide)

theorem status_of_errors (errs : List (List Char)) :
    ((if errs.isEmpty then OAuthService.fullySynced else OAuthService.syncError)
      = OAuthService.fullySynced) ↔ errs = [] := by
  by_cases h : errs.isEmpty
  · rw [if_pos h]
    simp [List.isEmpty_iff.mp h]
  · rw [if_neg h]
    constructor
    · intro hq
      exact absurd hq (by decide)
    · intro hq
      rw [hq] at h
      simp at h

/-- C7: Company-info failure degradation and binary status — when the
company-info fetch raises, the sync keeps the fallback default company name
instead of propagating, records company_info_fetch_failed, and the overall
status is sync_error; customer data fetched successfully is still delivered
in the payload; and for every combination of step outcomes the status is
fully_synced exactly when the recorded errors list is empty (never a
partial-success value). -/
theorem claim_C7 :
    (∀ (dn : List Char) (u : Except Unit Unit) (df : Except Unit Json),
        (OAuthService.process_initial_sync dn (.error ()) u df).company_name = dn
      ∧ OAuthService.companyInfoFetchFailed
          ∈ (OAuthService.process_initial_sync dn (.error ()) u df).errors
      ∧ (OAuthService.process_initial_sync dn (.error ()) u df).status = OAuthService.syncError)
  ∧ (∀ (dn : List Char) (u : Except Unit Unit) (d : Json) (cs : List OAuthService.ClientRow),
        OAuthService.extract_customers d = .ok cs →
        (OAuthService.process_initial_sync dn (.error ()) u (.ok d)).accounting_clients = cs)
  ∧ (∀ (dn : List Char) (cf : Except Unit (List Char)) (u : Except Unit Unit)
        (df : Except Unit Json),
        (OAuthService.process_initial_sync dn cf u df).status = OAuthService.fullySynced
      ↔ (OAuthService.process_initial_sync dn cf u df).errors = []) := by
  refine ⟨?_, ?_, ?_⟩
  · intro dn u df
    unfold OAuthService.process_initial_sync
    dsimp only
    refine ⟨rfl, by simp, by simp [OAuthService.fullySynced, OAuthService.syncError]⟩
  · intro dn u d cs hcs
    unfold OAuthService.process_initial_sync
    dsimp only
    rw [hcs]
  · intro dn cf u df
    unfold OAuthService.process_initial_sync
    dsimp only
    exact status_of_errors _

theorem claim_C7_witness :
    (OAuthService.process_initial_sync "QuickBooks Account".data (.error ()) (.ok ())
        (.ok (.obj []))).accounting_clients = [] :=
  (claim_C7.2.1) "QuickBooks Account".data (.ok ()) (.obj []) [] rfl
